import Mathlib

set_option maxHeartbeats 1000000

/-! Verification development for the dx-lib action-dispatch layer.

The embedding covers the two core source components:
* `try-catch.ts` — the Failure-Trapping Primitive `tryCatch`, modelled at the
  JavaScript runtime level (slots of the returned object hold arbitrary JS
  values, with `null` marking the empty slot, exactly as the runtime object
  `{ result, error }` does).
* `define-validated-action.ts` — the Validated Dispatcher
  (`defineValidatedAction`, `execute`, `executeNoInput`,
  `handleActionResponse`), modelled at the level of its TypeScript types:
  optional values as `Option`, thrown failures as `Error` objects carrying a
  `message` string, settled promises as `Except`.
-/

deriving instance DecidableEq for Except

namespace DxLib

/-- Model of the JavaScript runtime values that flow through the library:
primitives, `Error` objects (identified by their `message` string),
plain string-valued objects (records, as produced by flattening form data),
and `FormData` (an ordered multi-map of string entries, duplicates allowed). -/
inductive JSVal where
  | nullVal : JSVal
  | undef : JSVal
  | boolVal (b : Bool) : JSVal
  | num (n : Int) : JSVal
  | str (s : String) : JSVal
  | errObj (message : String) : JSVal
  | record (fields : List (String × String)) : JSVal
  | formData (entries : List (String × String)) : JSVal
deriving DecidableEq

/-- Leading-segment test on character lists, used to model JavaScript
`String.prototype.includes`. -/
def charsLeading : List Char → List Char → Bool
  | [], _ => true
  | _ :: _, [] => false
  | a :: as, b :: bs => a == b && charsLeading as bs

/-- Character-list substring test (does `needle` occur inside the list?). -/
def charsContains (needle : List Char) : List Char → Bool
  | [] => charsLeading needle []
  | c :: cs => charsLeading needle (c :: cs) || charsContains needle cs

/-- Model of JavaScript `hay.includes(needle)`: substring containment. -/
def stringIncludes (hay needle : String) : Bool :=
  charsContains needle.data hay.data

/-! ## Failure-Trapping Primitive (`try-catch.ts`)

`tryCatch` receives either a pending promise or a zero-argument callable.
A shallow embedding identifies each with its eventual outcome: the promise
either resolves with a value or rejects with a reason; the callable either
returns a value or throws. -/

/-- The two invocation forms of `tryCatch`, each identified by the outcome of
the wrapped computation (`Except.ok` = resolved/returned value,
`Except.error` = rejection reason / thrown value). -/
inductive TryCatchInput where
  | promiseArg (outcome : Except JSVal JSVal)
  | callableArg (run : Except JSVal JSVal)
deriving DecidableEq

/-- The runtime object `{ result, error }` returned by `tryCatch`
(TypeScript type `Result<T, E> = Success<T> | Failure<E>`). At runtime both
fields always exist and `null` is the marker for the unpopulated side, so the
slots hold raw JS values, not options. -/
structure Result where
  result : JSVal
  error : JSVal
deriving DecidableEq

/-- Model of `tryCatch` from `try-catch.ts`: a resolved promise maps through
the `.then` handler to `{ result, error: null }`, a rejected one through
`.catch` to `{ result: null, error }`; a returning callable yields
`{ result, error: null }`, a throwing one is caught into
`{ result: null, error }`. Totality of this Lean function models the
contract that `tryCatch` itself never raises or rejects. -/
def tryCatch : TryCatchInput → Result
  | .promiseArg (.ok v) => { result := v, error := .nullVal }
  | .promiseArg (.error e) => { result := .nullVal, error := e }
  | .callableArg (.ok v) => { result := v, error := .nullVal }
  | .callableArg (.error e) => { result := .nullVal, error := e }

/-- A slot of the `tryCatch` pair is populated when it holds a non-null
value (`null` being the runtime marker for the empty side). -/
def slotPopulated (v : JSVal) : Bool := v != JSVal.nullVal

/-- The outcome of the computation wrapped by a `tryCatch` invocation,
independent of which invocation form carried it. -/
def inputOutcome : TryCatchInput → Except JSVal JSVal
  | .promiseArg o => o
  | .callableArg r => r

/-- Whether the value delivered by the wrapped computation (its result on
success, its raised reason on failure) is itself the JS value `null`. -/
def deliveredNull (i : TryCatchInput) : Bool :=
  match inputOutcome i with
  | .ok v => v == JSVal.nullVal
  | .error e => e == JSVal.nullVal

/-! ## Validated Dispatcher (`define-validated-action.ts`) -/

/-- A JavaScript `Error` object as the dispatcher's TypeScript types see it:
identified by its `message` string. -/
structure Err where
  message : String
deriving DecidableEq

/-- Field-error mapping produced by the validation collaborator: each invalid
field's path mapped to its list of validator messages
(`parsedInput.error.flatten().fieldErrors`). -/
def FieldErrors := List (String × List String)
deriving instance DecidableEq for FieldErrors

/-- Outcome of `schema.safeParse(input)` for the zod collaborator: either the
parsed data or the flattened field errors. -/
inductive SafeParseResult where
  | success (data : JSVal)
  | failure (fieldErrors : FieldErrors)
deriving DecidableEq

/-- A zod schema, modelled by its `safeParse` behaviour on runtime values
(zod's `safeParse` accepts `unknown`, so the domain is all JS values). -/
abbrev Schema := JSVal → SafeParseResult

/-- The user-supplied handler, modelled as a JavaScript function of its
positional argument list whose awaited promise either delivers a value or a
thrown `Error`. The dispatcher calls it as `action(data, user)`,
`action(data)`, `action(user)`, or `action(undefined)`. -/
abbrev ActionFn := List JSVal → Except Err JSVal

/-- The optional `onError` failure-observer callback; calling it either
returns normally or itself throws. -/
abbrev ObserverFn := Err → Except Err Unit

/-- The `error` member of `ActionFunctionResult`: optional `fieldErrors`
and optional `message` (absent = `undefined`). -/
structure ActionError where
  fieldErrors : Option FieldErrors
  message : Option String
deriving DecidableEq

/-- The uniform `ActionFunctionResult` shape: optional `result` and optional
`error` (absent = `undefined`). -/
structure ActionFunctionResult where
  result : Option JSVal
  error : Option ActionError
deriving DecidableEq

/-- The `type` discriminant of a call configuration: `"form"`, `"object"`,
or `"null"`. -/
inductive ActionType where
  | form
  | object
  | nullType
deriving DecidableEq

/-- The definition-time call configuration captured by
`defineValidatedAction`'s closure. The `auth` collaborator, when configured,
is identified by the outcome of awaiting `auth()` during the invocation
(`Except.ok user` or a thrown/rejected `Error`). The schema is total here:
the public overloads require a schema for `form`/`object` configurations,
and the `null` configuration never consults it. -/
structure Config where
  schema : Schema
  action : ActionFn
  actionType : ActionType
  auth : Option (Except Err JSVal)
  onError : Option ObserverFn

/-- Model of `handleActionResponse`: rethrow failures whose message contains
the `NEXT_REDIRECT` sentinel; otherwise call the observer when configured
(its own failure propagates) and fold into `{ error: { message } }`; with no
failure, return `{ result: res }`. The `Except.error` side of the return
models the dispatcher's promise rejecting. -/
def handleActionResponse (res : Option JSVal) (error : Option Err)
    (onError : Option ObserverFn) : Except Err ActionFunctionResult :=
  match error with
  | some e =>
    if stringIncludes e.message "NEXT_REDIRECT" then
      Except.error e
    else
      match onError with
      | some f =>
        match f e with
        | Except.error observerFailure => Except.error observerFailure
        | Except.ok _ =>
          Except.ok { error := some { fieldErrors := none, message := some e.message },
                      result := none }
      | none =>
        Except.ok { error := some { fieldErrors := none, message := some e.message },
                    result := none }
  | none => Except.ok { error := none, result := res }

/-- The typed view of `await tryCatch(promise)` as `execute` destructures it:
`{ result: T | null, error: Error | null }`, nullable slots as options. -/
def tryCatchAwaited (promise : Except Err JSVal) : Option JSVal × Option Err :=
  match promise with
  | Except.ok v => (some v, none)
  | Except.error e => (none, some e)

/-- Model of `execute`: validate the input with `schema.safeParse`; on
success resolve the principal when configured (`await auth()` is not trapped,
so its failure propagates), run the handler through `tryCatch`, and fold via
`handleActionResponse`; on validation failure return the flattened field
errors immediately. -/
def execute (input : JSVal) (schema : Schema) (action : ActionFn)
    (auth : Option (Except Err JSVal)) (onError : Option ObserverFn) :
    Except Err ActionFunctionResult :=
  match schema input with
  | .success data =>
    match auth with
    | some authOutcome =>
      match authOutcome with
      | Except.error e => Except.error e
      | Except.ok user =>
        let p := tryCatchAwaited (action [data, user])
        handleActionResponse p.1 p.2 onError
    | none =>
      let p := tryCatchAwaited (action [data])
      handleActionResponse p.1 p.2 onError
  | .failure fieldErrors =>
    Except.ok { error := some { fieldErrors := some fieldErrors, message := none },
                result := none }

/-- Model of `executeNoInput`: resolve the principal when configured (again
untrapped), call the handler with the user — or with `undefined` when
unauthenticated — through `tryCatch`, and fold via `handleActionResponse`. -/
def executeNoInput (action : ActionFn) (auth : Option (Except Err JSVal))
    (onError : Option ObserverFn) : Except Err ActionFunctionResult :=
  match auth with
  | some authOutcome =>
    match authOutcome with
    | Except.error e => Except.error e
    | Except.ok user =>
      let p := tryCatchAwaited (action [user])
      handleActionResponse p.1 p.2 onError
  | none =>
    let p := tryCatchAwaited (action [JSVal.undef])
    handleActionResponse p.1 p.2 onError

/-- JavaScript object property assignment `obj[key] = value` on a
string-valued record: overwrite the existing entry in place, or append a new
one. -/
def objSet (fields : List (String × String)) (k v : String) :
    List (String × String) :=
  if fields.any (fun kv => kv.1 == k) then
    fields.map (fun kv => if kv.1 == k then (k, v) else kv)
  else
    fields ++ [(k, v)]

/-- The FormData flattening loop of `defineValidatedAction`'s `form` branch:
`input.forEach((value, key) => { formDataInput[key] = value })`, iterating
the entries in insertion order over an initially empty plain object. -/
def formDataToObject (entries : List (String × String)) :
    List (String × String) :=
  entries.foldl (fun acc kv => objSet acc kv.1 kv.2) []

/-- Property lookup `obj[key]` on the flattened record (`undefined`, i.e.
`none`, when the key is absent). -/
def recordGet (fields : List (String × String)) (k : String) : Option String :=
  (fields.find? (fun kv => kv.1 == k)).map Prod.snd

/-- The last value appearing under a key in a FormData entry list. -/
def lastEntryValue (entries : List (String × String)) (k : String) :
    Option String :=
  (entries.reverse.find? (fun kv => kv.1 == k)).map Prod.snd

/-- Model of `defineValidatedAction`: the returned invocation handle,
curried over the per-call argument (`JSVal.undef` models calling with no
argument). It mirrors the closure's dispatch: `type === "form"` together
with `input instanceof FormData` flattens and runs `execute`; otherwise
`type === "object"` runs `execute` on the raw argument; every remaining case
falls through to `executeNoInput`. -/
def defineValidatedAction (cfg : Config) (input : JSVal) :
    Except Err ActionFunctionResult :=
  match cfg.actionType, input with
  | .form, .formData entries =>
    execute (.record (formDataToObject entries)) cfg.schema cfg.action
      cfg.auth cfg.onError
  | .object, v => execute v cfg.schema cfg.action cfg.auth cfg.onError
  | _, _ => executeNoInput cfg.action cfg.auth cfg.onError

/-- Whether a runtime value is a `FormData` instance
(`input instanceof FormData`). -/
def isFormDataVal : JSVal → Bool
  | .formData _ => true
  | _ => false

/-- The invocation reaches the handler stage: for a `form` configuration
invoked with `FormData`, the flattened object parses; for an `object`
configuration, the raw argument parses; every other dispatch combination
skips validation entirely. -/
def reachesHandler (cfg : Config) (input : JSVal) : Prop :=
  match cfg.actionType, input with
  | .form, .formData entries =>
    ∃ d, cfg.schema (.record (formDataToObject entries)) = .success d
  | .object, v => ∃ d, cfg.schema v = .success d
  | _, _ => True

/-- Validation of this invocation fails with the given field errors (only
the two validated dispatch combinations can fail validation). -/
def validationFails (cfg : Config) (input : JSVal) (fe : FieldErrors) : Prop :=
  match cfg.actionType, input with
  | .form, .formData entries =>
    cfg.schema (.record (formDataToObject entries)) = .failure fe
  | .object, v => cfg.schema v = .failure fe
  | _, _ => False

/-- Principal resolution does not reject this invocation: either no `auth`
collaborator is configured, or awaiting it delivers a user. -/
def authOk (cfg : Config) : Prop :=
  cfg.auth = none ∨ ∃ u, cfg.auth = some (Except.ok u)

/-! ## Sample configurations used by witnesses and counterexamples -/

/-- An `object` configuration whose handler raises a navigation failure. -/
def cfgRedirect : Config :=
  { schema := fun v => .success v
    action := fun _ => Except.error { message := "NEXT_REDIRECT;push;/home" }
    actionType := .object
    auth := none
    onError := some (fun _ => Except.ok ()) }

/-- An `object` configuration whose schema rejects every input. -/
def cfgValidation : Config :=
  { schema := fun _ => .failure [("age", ["Requires a number"])]
    action := fun _ => Except.ok (.str "should not run")
    actionType := .object
    auth := none
    onError := none }

/-- An authenticated `object` configuration whose handler succeeds. -/
def cfgEcho : Config :=
  { schema := fun v => .success v
    action := fun _ => Except.ok (.str "John - john@example.com")
    actionType := .object
    auth := some (Except.ok (.record [("email", "john@example.com")]))
    onError := none }

/-- An `object` configuration with a failing handler and a benign
failure-observer. -/
def cfgBoom : Config :=
  { schema := fun v => .success v
    action := fun _ => Except.error { message := "Unexpected error" }
    actionType := .object
    auth := none
    onError := some (fun _ => Except.ok ()) }

/-- An `object` configuration with a failing handler and a failure-observer
that itself raises. -/
def cfgObserverThrows : Config :=
  { schema := fun v => .success v
    action := fun _ => Except.error { message := "boom" }
    actionType := .object
    auth := none
    onError := some (fun _ => Except.error { message := "observer exploded" }) }

/-- A `null`-shape configuration whose principal resolver raises an ordinary,
non-navigation failure. -/
def cfgAuthFail : Config :=
  { schema := fun v => .success v
    action := fun _ => Except.ok (.str "ok")
    actionType := .nullType
    auth := some (Except.error { message := "unauthenticated" })
    onError := none }

/-- A `form`-tagged configuration whose schema rejects every input and whose
handler records that it ran. -/
def cfgFormSniff : Config :=
  { schema := fun _ => .failure [("field", ["invalid"])]
    action := fun _ => Except.ok (.str "ran")
    actionType := .form
    auth := none
    onError := none }

/-- An `object` configuration with a failing handler and a benign
failure-observer, used to show folding still happens. -/
def cfgObserverFold : Config :=
  { schema := fun v => .success v
    action := fun _ => Except.error { message := "boom" }
    actionType := .object
    auth := none
    onError := some (fun _ => Except.ok ()) }

/-! ## Theorems about the Failure-Trapping Primitive -/

/-- C8 counterexample: wrapping a computation that successfully returns the
JS value `null` yields the runtime pair `{ result: null, error: null }`, in
which both slots are empty — refuting the claim that the pair never has both
sides empty even when the successful result is itself `null`. -/
theorem outcome_both_empty_on_null_cex :
    slotPopulated (tryCatch (.callableArg (.ok .nullVal))).result = false ∧
    slotPopulated (tryCatch (.callableArg (.ok .nullVal))).error = false := by
  refine ⟨rfl, rfl⟩

/-- C8 amended: for every wrapped computation the two slots of the returned
pair are never both populated; and both are empty exactly when the value the
computation delivered (its result on success, its raised failure on
rejection) is itself `null`. -/
theorem outcome_slots_characterization (i : TryCatchInput) :
    ¬(slotPopulated (tryCatch i).result = true ∧
        slotPopulated (tryCatch i).error = true) ∧
    ((slotPopulated (tryCatch i).result = false ∧
        slotPopulated (tryCatch i).error = false) ↔ deliveredNull i = true) := by
  rcases i with o | o <;> rcases o with e | v <;>
    simp [tryCatch, slotPopulated, deliveredNull, inputOutcome,
      bne_eq_false_iff_eq, beq_iff_eq]

/-- C9: `tryCatch` never raises or rejects (it is a total function into the
pair type, with no failure channel), and whenever the wrapped computation
completes with a value `v` — falsy values such as `0` or `""` included — the
returned pair is `{ result: v, error: null }`. -/
theorem trycatch_success_outcome (i : TryCatchInput) (v : JSVal)
    (h : inputOutcome i = Except.ok v) :
    tryCatch i = { result := v, error := .nullVal } := by
  rcases i with o | o <;> simp only [inputOutcome] at h <;> subst h <;> rfl

/-- Witness for C9 at the falsy value `0` delivered by a resolved promise. -/
theorem trycatch_success_outcome_witness :
    inputOutcome (.promiseArg (.ok (.num 0))) = Except.ok (JSVal.num 0) ∧
    tryCatch (.promiseArg (.ok (.num 0))) =
      { result := JSVal.num 0, error := .nullVal } :=
  ⟨rfl, trycatch_success_outcome _ _ rfl⟩

/-- Witness for C8 amended, instantiated at a promise rejecting with a
non-null string reason. -/
theorem outcome_slots_characterization_witness :
    ¬(slotPopulated (tryCatch (.promiseArg (.error (.str "x")))).result = true ∧
        slotPopulated (tryCatch (.promiseArg (.error (.str "x")))).error = true) ∧
    ((slotPopulated (tryCatch (.promiseArg (.error (.str "x")))).result = false ∧
        slotPopulated (tryCatch (.promiseArg (.error (.str "x")))).error = false) ↔
      deliveredNull (.promiseArg (.error (.str "x"))) = true) :=
  outcome_slots_characterization (.promiseArg (.error (.str "x")))

/-! ## Theorems about FormData flattening -/

/-- Finding the assigned key in the overwrite image of `objSet` returns the
new binding whenever the key was already present. -/
theorem find?_objSet_map_self (fields : List (String × String))
    (k v : String) (h : fields.any (fun kv => kv.1 == k) = true) :
    (fields.map (fun kv => if kv.1 == k then (k, v) else kv)).find?
        (fun kv => kv.1 == k) = some (k, v) := by
  induction fields with
  | nil => simp at h
  | cons kv rest ih =>
    simp only [List.map_cons, List.find?_cons]
    by_cases hkv : kv.1 = k
    · have hb : (kv.1 == k) = true := beq_iff_eq.mpr hkv
      simp [hb, hkv]
    · have hb : (kv.1 == k) = false := beq_eq_false_iff_ne.mpr hkv
      simp only [List.any_cons, hb, Bool.false_or] at h
      simp only [ih h, hb, Bool.false_eq_true, if_false]

/-- The overwrite image of `objSet` leaves lookups of other keys alone. -/
theorem find?_objSet_map_other (fields : List (String × String))
    (k v k' : String) (hkk : (k == k') = false) :
    (fields.map (fun kv => if kv.1 == k then (k, v) else kv)).find?
        (fun kv => kv.1 == k') =
      fields.find? (fun kv => kv.1 == k') := by
  induction fields with
  | nil => rfl
  | cons kv rest ih =>
    simp only [List.map_cons, List.find?_cons, ih]
    by_cases hkv : kv.1 = k
    · have hb : (kv.1 == k) = true := beq_iff_eq.mpr hkv
      simp [hb, hkv, hkk]
    · have hb : (kv.1 == k) = false := beq_eq_false_iff_ne.mpr hkv
      by_cases hkv' : kv.1 = k'
      · have hb' : (kv.1 == k') = true := beq_iff_eq.mpr hkv'
        simp [hb, hb']
      · have hb' : (kv.1 == k') = false := beq_eq_false_iff_ne.mpr hkv'
        simp [hb, hb']

/-- Looking up the key just assigned by `objSet` returns the new value. -/
theorem recordGet_objSet_self (fields : List (String × String))
    (k v : String) : recordGet (objSet fields k v) k = some v := by
  unfold recordGet objSet
  by_cases h : fields.any (fun kv => kv.1 == k) = true
  · rw [if_pos h, find?_objSet_map_self fields k v h]
    rfl
  · have hnone : fields.find? (fun kv => kv.1 == k) = none := by
      rw [List.find?_eq_none]
      intro x hx
      exact fun hpx => h (List.any_eq_true.mpr ⟨x, hx, hpx⟩)
    rw [if_neg h, List.find?_append, hnone]
    simp [List.find?_cons]

/-- Looking up any other key is unaffected by an `objSet` assignment. -/
theorem recordGet_objSet_other (fields : List (String × String))
    (k v k' : String) (hne : k' ≠ k) :
    recordGet (objSet fields k v) k' = recordGet fields k' := by
  have hkk : (k == k') = false := by
    simp only [beq_eq_false_iff_ne, ne_eq]
    exact fun hkk => hne hkk.symm
  unfold recordGet objSet
  by_cases h : fields.any (fun kv => kv.1 == k) = true
  · rw [if_pos h, find?_objSet_map_other _ _ _ _ hkk]
  · have hsingle : List.find? (fun kv => kv.1 == k') [(k, v)] = none := by
      simp [List.find?_cons, hkk]
    rw [if_neg h, List.find?_append, hsingle, Option.or_none]

/-- Folding the flattening step over any accumulator: the lookup is decided
by the last matching entry, falling back to the accumulator. -/
theorem recordGet_flatten_foldl (entries : List (String × String))
    (acc : List (String × String)) (k : String) :
    recordGet (entries.foldl (fun a kv => objSet a kv.1 kv.2) acc) k =
      match entries.reverse.find? (fun kv => kv.1 == k) with
      | some kv => some kv.2
      | none => recordGet acc k := by
  induction entries generalizing acc with
  | nil => rfl
  | cons kv rest ih =>
    simp only [List.foldl_cons, List.reverse_cons, List.find?_append]
    rw [ih]
    cases hfind : rest.reverse.find? (fun kv => kv.1 == k) with
    | some kv' => simp [Option.or]
    | none =>
      by_cases hkv : (kv.1 == k) = true
      · have hk1 : kv.1 = k := beq_iff_eq.mp hkv
        simp [Option.or, List.find?_cons, hkv, hk1,
          recordGet_objSet_self]
      · have hne : k ≠ kv.1 := by
          intro hkk
          exact absurd (beq_iff_eq.mpr hkk.symm) (by simp [hkv])
        simp [Option.or, List.find?_cons, hkv,
          recordGet_objSet_other _ _ _ _ hne]

/-- C10: the FormData flattening loop keeps, for every key, exactly the last
entry's value — looking a key up in the flattened object returns the value
of the last FormData entry under that key (and earlier duplicates are
dropped). -/
theorem formdata_flatten_last_wins (entries : List (String × String))
    (k : String) :
    recordGet (formDataToObject entries) k = lastEntryValue entries k := by
  unfold formDataToObject lastEntryValue
  rw [recordGet_flatten_foldl]
  cases hfind : entries.reverse.find? (fun kv => kv.1 == k) <;>
    simp [recordGet]


/-! ## Shared lemmas about the dispatcher pipeline -/

/-- Navigation failures are rethrown by `handleActionResponse`. -/
theorem handleActionResponse_nav (res : Option JSVal) (e : Err)
    (onError : Option ObserverFn)
    (hnav : stringIncludes e.message "NEXT_REDIRECT" = true) :
    handleActionResponse res (some e) onError = Except.error e := by
  simp [handleActionResponse, hnav]

/-- With no trapped failure, `handleActionResponse` returns the handler's
result. -/
theorem handleActionResponse_success (res : Option JSVal)
    (onError : Option ObserverFn) :
    handleActionResponse res none onError =
      Except.ok { result := res, error := none } := rfl

/-- When the principal resolver and the (uniform-outcome) handler are the
only effects, `executeNoInput` reduces to folding the handler outcome. -/
theorem executeNoInput_uniform (action : ActionFn)
    (auth : Option (Except Err JSVal)) (onError : Option ObserverFn)
    (out : Except Err JSVal)
    (hauth : auth = none ∨ ∃ u, auth = some (Except.ok u))
    (hact : ∀ args, action args = out) :
    executeNoInput action auth onError =
      handleActionResponse (tryCatchAwaited out).1 (tryCatchAwaited out).2
        onError := by
  rcases hauth with h | ⟨u, h⟩ <;> subst h <;>
    simp only [executeNoInput, hact]

/-- When validation succeeds, the resolver delivers (or is absent), and the
handler outcome is uniform, `execute` reduces to folding that outcome. -/
theorem execute_uniform (input : JSVal) (schema : Schema) (action : ActionFn)
    (auth : Option (Except Err JSVal)) (onError : Option ObserverFn)
    (d : JSVal) (out : Except Err JSVal)
    (hparse : schema input = .success d)
    (hauth : auth = none ∨ ∃ u, auth = some (Except.ok u))
    (hact : ∀ args, action args = out) :
    execute input schema action auth onError =
      handleActionResponse (tryCatchAwaited out).1 (tryCatchAwaited out).2
        onError := by
  rcases hauth with h | ⟨u, h⟩ <;> subst h <;>
    simp only [execute, hparse, hact]

/-- Dispatch-level version of the uniform-outcome reduction, across all
shape/argument combinations that reach the handler. -/
theorem dispatch_uniform (cfg : Config) (input : JSVal)
    (out : Except Err JSVal)
    (hreach : reachesHandler cfg input) (hauth : authOk cfg)
    (hact : ∀ args, cfg.action args = out) :
    defineValidatedAction cfg input =
      handleActionResponse (tryCatchAwaited out).1 (tryCatchAwaited out).2
        cfg.onError := by
  obtain ⟨schema, action, ty, auth, onErr⟩ := cfg
  cases ty with
  | form =>
    cases input with
    | formData entries =>
      obtain ⟨d, hparse⟩ := hreach
      exact execute_uniform _ _ _ _ _ _ _ hparse hauth hact
    | nullVal => exact executeNoInput_uniform _ _ _ _ hauth hact
    | undef => exact executeNoInput_uniform _ _ _ _ hauth hact
    | boolVal b => exact executeNoInput_uniform _ _ _ _ hauth hact
    | num n => exact executeNoInput_uniform _ _ _ _ hauth hact
    | str s => exact executeNoInput_uniform _ _ _ _ hauth hact
    | errObj m => exact executeNoInput_uniform _ _ _ _ hauth hact
    | record fs => exact executeNoInput_uniform _ _ _ _ hauth hact
  | object =>
    obtain ⟨d, hparse⟩ := hreach
    exact execute_uniform _ _ _ _ _ _ _ hparse hauth hact
  | nullType => exact executeNoInput_uniform _ _ _ _ hauth hact

/-- Validation failure short-circuits the dispatch to the field-error
result, independently of handler, resolver and observer. -/
theorem dispatch_parse_failure (cfg : Config) (input : JSVal)
    (fe : FieldErrors) (hfail : validationFails cfg input fe) :
    defineValidatedAction cfg input =
      Except.ok { result := none,
                  error := some { fieldErrors := some fe, message := none } } := by
  obtain ⟨schema, action, ty, auth, onErr⟩ := cfg
  cases ty with
  | form =>
    cases input with
    | formData entries =>
      have hp : schema (.record (formDataToObject entries)) = .failure fe :=
        hfail
      simp only [defineValidatedAction, execute, hp]
    | nullVal => exact absurd hfail id
    | undef => exact absurd hfail id
    | boolVal b => exact absurd hfail id
    | num n => exact absurd hfail id
    | str s => exact absurd hfail id
    | errObj m => exact absurd hfail id
    | record fs => exact absurd hfail id
  | object =>
    have hp : schema input = .failure fe := hfail
    simp only [defineValidatedAction, execute, hp]
  | nullType => exact absurd hfail id

/-- A configured resolver whose awaited call fails makes the whole
invocation reject with that failure, whenever the flow reaches it. -/
theorem dispatch_auth_error (cfg : Config) (input : JSVal) (e : Err)
    (hreach : reachesHandler cfg input)
    (hauth : cfg.auth = some (Except.error e)) :
    defineValidatedAction cfg input = Except.error e := by
  obtain ⟨schema, action, ty, auth, onErr⟩ := cfg
  have hauth' : auth = some (Except.error e) := hauth
  subst hauth'
  cases ty with
  | form =>
    cases input with
    | formData entries =>
      obtain ⟨d, hparse⟩ := hreach
      have hp : schema (.record (formDataToObject entries)) = .success d :=
        hparse
      simp only [defineValidatedAction, execute, hp]
    | nullVal => rfl
    | undef => rfl
    | boolVal b => rfl
    | num n => rfl
    | str s => rfl
    | errObj m => rfl
    | record fs => rfl
  | object =>
    obtain ⟨d, hparse⟩ := hreach
    have hp : schema input = .success d := hparse
    simp only [defineValidatedAction, execute, hp]
  | nullType => rfl

/-- On validation failure the schema result is a `failure`. -/
theorem not_reaches_validationFails (cfg : Config) (input : JSVal)
    (h : ¬reachesHandler cfg input) :
    ∃ fe, validationFails cfg input fe := by
  obtain ⟨schema, action, ty, auth, onErr⟩ := cfg
  cases ty with
  | form =>
    cases input with
    | formData entries =>
      cases hp : schema (.record (formDataToObject entries)) with
      | success d => exact absurd ⟨d, hp⟩ h
      | failure fe => exact ⟨fe, hp⟩
    | nullVal => exact absurd trivial h
    | undef => exact absurd trivial h
    | boolVal b => exact absurd trivial h
    | num n => exact absurd trivial h
    | str s => exact absurd trivial h
    | errObj m => exact absurd trivial h
    | record fs => exact absurd trivial h
  | object =>
    cases hp : schema input with
    | success d => exact absurd ⟨d, hp⟩ h
    | failure fe => exact ⟨fe, hp⟩
  | nullType => exact absurd trivial h

/-! ## Claim theorems about the dispatcher -/

/-- C1: whenever the dispatch reaches the handler and the handler fails with
a message containing the `NEXT_REDIRECT` navigation sentinel, the
invocation's promise rejects with that exact failure object — it is not
folded into an `ActionFunctionResult` — regardless of the configured
failure-observer. -/
theorem redirect_failures_reject_unfolded (cfg : Config) (input : JSVal)
    (e : Err) (hreach : reachesHandler cfg input) (hauth : authOk cfg)
    (hact : ∀ args, cfg.action args = Except.error e)
    (hnav : stringIncludes e.message "NEXT_REDIRECT" = true) :
    defineValidatedAction cfg input = Except.error e := by
  rw [dispatch_uniform cfg input (Except.error e) hreach hauth hact]
  exact handleActionResponse_nav _ _ _ hnav

/-- Witness for C1: a handler raising a `NEXT_REDIRECT` failure makes the
invocation reject with it, here with an observer configured. -/
theorem redirect_failures_reject_unfolded_witness :
    defineValidatedAction cfgRedirect (.str "x") =
      Except.error { message := "NEXT_REDIRECT;push;/home" } :=
  redirect_failures_reject_unfolded cfgRedirect (.str "x")
    { message := "NEXT_REDIRECT;push;/home" } ⟨.str "x", rfl⟩ (Or.inl rfl)
    (fun _ => rfl) (by decide)

/-- C2: an input failing schema validation yields the field-error result
with `result` absent and the validator's own messages passed through
verbatim; the right-hand side mentions neither the handler nor the resolver,
so the handler is never invoked and no principal resolution occurs. -/
theorem validation_failure_short_circuits (cfg : Config) (input : JSVal)
    (fe : FieldErrors) (hfail : validationFails cfg input fe) :
    defineValidatedAction cfg input =
      Except.ok { result := none,
                  error := some { fieldErrors := some fe, message := none } } :=
  dispatch_parse_failure cfg input fe hfail

/-- Witness for C2: a rejecting schema short-circuits to its field errors. -/
theorem validation_failure_short_circuits_witness :
    defineValidatedAction cfgValidation (.str "value") =
      Except.ok
        { result := none,
          error := some
            { fieldErrors := some [("age", ["Requires a number"])],
              message := none } } :=
  validation_failure_short_circuits cfgValidation (.str "value")
    [("age", ["Requires a number"])] rfl

/-- C3: for every configuration and input that passes validation (or skips
it), when the resolver delivers and the handler returns `V`, the invocation
resolves to exactly `{ result: V }` with `error` absent. -/
theorem handler_success_folds_to_result (cfg : Config) (input : JSVal)
    (V : JSVal) (hreach : reachesHandler cfg input) (hauth : authOk cfg)
    (hact : ∀ args, cfg.action args = Except.ok V) :
    defineValidatedAction cfg input =
      Except.ok { result := some V, error := none } := by
  rw [dispatch_uniform cfg input (Except.ok V) hreach hauth hact]
  exact handleActionResponse_success _ _

/-- Witness for C3: an authenticated `object` action whose handler returns a
string resolves to that string as the result. -/
theorem handler_success_folds_to_result_witness :
    defineValidatedAction cfgEcho (.record [("name", "John")]) =
      Except.ok { result := some (.str "John - john@example.com"),
                  error := none } :=
  handler_success_folds_to_result cfgEcho (.record [("name", "John")])
    (.str "John - john@example.com") ⟨.record [("name", "John")], rfl⟩
    (Or.inr ⟨.record [("email", "john@example.com")], rfl⟩) (fun _ => rfl)

/-- Forward analysis of a rejection when the flow reaches the handler and
the resolver delivered: the handler must have failed, and either the failure
is a navigation signal or the configured observer itself raised. -/
theorem rejection_cause_of_uniform (cfg : Config) (input : JSVal)
    (out : Except Err JSVal) (e' : Err)
    (hreach : reachesHandler cfg input) (hauth : authOk cfg)
    (hact : ∀ args, cfg.action args = out)
    (he' : defineValidatedAction cfg input = Except.error e') :
    ∃ e, out = Except.error e ∧
      (stringIncludes e.message "NEXT_REDIRECT" = true ∨
        ∃ f oe, cfg.onError = some f ∧ f e = Except.error oe) := by
  rw [dispatch_uniform cfg input out hreach hauth hact] at he'
  cases out with
  | ok v => simp [tryCatchAwaited, handleActionResponse] at he'
  | error e =>
    refine ⟨e, rfl, ?_⟩
    cases hnav : stringIncludes e.message "NEXT_REDIRECT" with
    | true => exact Or.inl rfl
    | false =>
      right
      cases honerr : cfg.onError with
      | none =>
        rw [honerr] at he'
        simp [tryCatchAwaited, handleActionResponse, hnav] at he'
      | some f =>
        rw [honerr] at he'
        cases hfe : f e with
        | ok u =>
          simp [tryCatchAwaited, handleActionResponse, hnav, hfe] at he'
        | error oe => exact ⟨f, oe, rfl, hfe⟩

/-- C4 counterexample: a handler failure without the navigation sentinel
does not always resolve — with an observer that itself raises, the
invocation rejects with the observer's failure. -/
theorem handler_failure_not_always_resolves_cex :
    stringIncludes "boom" "NEXT_REDIRECT" = false ∧
    defineValidatedAction cfgObserverThrows (.str "x") =
      Except.error { message := "observer exploded" } :=
  ⟨by decide, rfl⟩

/-- C4 amended: for every handler failure whose message lacks the navigation
sentinel, provided the configured failure-observer (if any) returns normally
on it, the invocation resolves to `{ error: { message } }` with the failure's
message verbatim and `result` absent. -/
theorem handler_failure_folds_to_message (cfg : Config) (input : JSVal)
    (e : Err) (hreach : reachesHandler cfg input) (hauth : authOk cfg)
    (hact : ∀ args, cfg.action args = Except.error e)
    (hnonav : stringIncludes e.message "NEXT_REDIRECT" = false)
    (hobs : ∀ f, cfg.onError = some f → f e = Except.ok ()) :
    defineValidatedAction cfg input =
      Except.ok
        { result := none,
          error := some { fieldErrors := none, message := some e.message } } := by
  rw [dispatch_uniform cfg input (Except.error e) hreach hauth hact]
  cases honerr : cfg.onError with
  | none => simp [tryCatchAwaited, handleActionResponse, hnonav]
  | some f =>
    have hf := hobs f honerr
    simp [tryCatchAwaited, handleActionResponse, hnonav, hf]

/-- Witness for C4 amended: a non-navigation handler failure folds to its
message, with a benign observer configured. -/
theorem handler_failure_folds_to_message_witness :
    defineValidatedAction cfgBoom (.str "x") =
      Except.ok
        { result := none,
          error := some
            { fieldErrors := none, message := some "Unexpected error" } } :=
  handler_failure_folds_to_message cfgBoom (.str "x")
    { message := "Unexpected error" } ⟨.str "x", rfl⟩ (Or.inl rfl)
    (fun _ => rfl) (by decide)
    (fun f hf => by
      have hsome : some (fun _ => Except.ok ()) = some f := hf
      cases hsome
      rfl)

/-- C5 counterexample: a principal resolver raising an ordinary (non
navigation) failure makes the invocation reject, refuting the claim that
rejection happens only for navigation signals. -/
theorem reject_iff_navigation_cex :
    stringIncludes "unauthenticated" "NEXT_REDIRECT" = false ∧
    defineValidatedAction cfgAuthFail .undef =
      Except.error { message := "unauthenticated" } :=
  ⟨by decide, rfl⟩

/-- C5 amended: assuming the handler's outcome is uniform in its arguments,
an invocation's promise rejects exactly when the flow reaches the handler
stage and either (a) the configured resolver raised any failure, or (b) the
handler failed with a navigation-sentinel message, or (c) the handler failed
without the sentinel and the configured failure-observer itself raised; in
every other case it resolves to an `ActionFunctionResult`. -/
theorem reject_characterization (cfg : Config) (input : JSVal)
    (out : Except Err JSVal) (hact : ∀ args, cfg.action args = out) :
    (∃ e, defineValidatedAction cfg input = Except.error e) ↔
      (reachesHandler cfg input ∧
        ((∃ ae, cfg.auth = some (Except.error ae)) ∨
          (authOk cfg ∧ ∃ e, out = Except.error e ∧
            (stringIncludes e.message "NEXT_REDIRECT" = true ∨
              ∃ f oe, cfg.onError = some f ∧ f e = Except.error oe)))) := by
  constructor
  · rintro ⟨e', he'⟩
    by_cases hreach : reachesHandler cfg input
    · refine ⟨hreach, ?_⟩
      cases hauthv : cfg.auth with
      | none =>
        exact Or.inr ⟨Or.inl hauthv,
          rejection_cause_of_uniform cfg input out e' hreach (Or.inl hauthv)
            hact he'⟩
      | some aout =>
        cases aout with
        | error ae => exact Or.inl ⟨ae, rfl⟩
        | ok u =>
          exact Or.inr ⟨Or.inr ⟨u, hauthv⟩,
            rejection_cause_of_uniform cfg input out e' hreach
              (Or.inr ⟨u, hauthv⟩) hact he'⟩
    · obtain ⟨fe, hfail⟩ := not_reaches_validationFails cfg input hreach
      rw [dispatch_parse_failure cfg input fe hfail] at he'
      exact absurd he' (by simp)
  · rintro ⟨hreach, ⟨ae, hae⟩ | ⟨hauth, e, hout, hrest⟩⟩
    · exact ⟨ae, dispatch_auth_error cfg input ae hreach hae⟩
    · subst hout
      rcases hrest with hnav | ⟨f, oe, hf, hfe⟩
      · refine ⟨e, ?_⟩
        rw [dispatch_uniform cfg input _ hreach hauth hact]
        exact handleActionResponse_nav _ _ _ hnav
      · cases hnav : stringIncludes e.message "NEXT_REDIRECT" with
        | true =>
          refine ⟨e, ?_⟩
          rw [dispatch_uniform cfg input _ hreach hauth hact]
          exact handleActionResponse_nav _ _ _ hnav
        | false =>
          refine ⟨oe, ?_⟩
          rw [dispatch_uniform cfg input _ hreach hauth hact]
          simp [tryCatchAwaited, handleActionResponse, hnav, hf, hfe]

/-- Witness for C5 amended: the characterization applied to a configuration
whose resolver fails shows the invocation rejects. -/
theorem reject_characterization_witness :
    ∃ e, defineValidatedAction cfgAuthFail .undef = Except.error e :=
  (reject_characterization cfgAuthFail .undef (Except.ok (.str "ok"))
    (fun _ => rfl)).mpr
    ⟨True.intro, Or.inl ⟨{ message := "unauthenticated" }, rfl⟩⟩

/-- C6 counterexample: a `form`-tagged handle invoked with a non-FormData
argument is dispatched down the no-input path — its always-rejecting schema
is never consulted and the handler runs — refuting the claim that the
per-call runtime shape is never consulted and every invocation of a
form-tagged handle validates its input as form data. -/
theorem form_tag_not_static_cex :
    cfgFormSniff.actionType = ActionType.form ∧
    cfgFormSniff.schema (.str "oops") = .failure [("field", ["invalid"])] ∧
    defineValidatedAction cfgFormSniff (.str "oops") =
      Except.ok { result := some (.str "ran"), error := none } :=
  ⟨rfl, rfl, rfl⟩

/-- C6 amended: dispatch uses the definition-time tag together with, for the
form tag, the per-call argument's runtime shape: a form-tagged handle
flattens and validates exactly when the argument is a FormData instance and
otherwise falls through to the no-input path; a `null`-tagged handle always
takes the no-input path (whose result never consults the schema). -/
theorem dispatch_by_tag_and_runtime_shape (cfg : Config) (input : JSVal) :
    (cfg.actionType = ActionType.form →
      ∀ entries, input = JSVal.formData entries →
        defineValidatedAction cfg input =
          execute (.record (formDataToObject entries)) cfg.schema cfg.action
            cfg.auth cfg.onError) ∧
    (cfg.actionType = ActionType.form → isFormDataVal input = false →
      defineValidatedAction cfg input =
        executeNoInput cfg.action cfg.auth cfg.onError) ∧
    (cfg.actionType = ActionType.nullType →
      defineValidatedAction cfg input =
        executeNoInput cfg.action cfg.auth cfg.onError) := by
  obtain ⟨schema, action, ty, auth, onErr⟩ := cfg
  refine ⟨?_, ?_, ?_⟩
  · rintro hty entries rfl
    cases ty with
    | form => rfl
    | object => exact ActionType.noConfusion hty
    | nullType => exact ActionType.noConfusion hty
  · intro hty hform
    cases ty with
    | form =>
      cases input with
      | formData entries => simp [isFormDataVal] at hform
      | nullVal => rfl
      | undef => rfl
      | boolVal b => rfl
      | num n => rfl
      | str s => rfl
      | errObj m => rfl
      | record fs => rfl
    | object => exact ActionType.noConfusion hty
    | nullType => exact ActionType.noConfusion hty
  · intro hty
    cases ty with
    | form => exact ActionType.noConfusion hty
    | object => exact ActionType.noConfusion hty
    | nullType => rfl

/-- Witness for C6 amended: a form-tagged handle on a FormData argument
dispatches to `execute` on the flattened record. -/
theorem dispatch_by_tag_and_runtime_shape_witness :
    defineValidatedAction cfgFormSniff (.formData [("a", "1")]) =
      execute (.record (formDataToObject [("a", "1")])) cfgFormSniff.schema
        cfgFormSniff.action cfgFormSniff.auth cfgFormSniff.onError :=
  (dispatch_by_tag_and_runtime_shape cfgFormSniff
    (.formData [("a", "1")])).1 rfl [("a", "1")] rfl

/-- C7 counterexample: with a failure-observer configured (and returning
normally), a trapped non-navigation failure is still folded into
`{ error: { message } }` — the observer is invoked in addition to, not
instead of, the folding. -/
theorem observer_configured_still_folds_cex :
    cfgObserverFold.onError.isSome = true ∧
    stringIncludes "boom" "NEXT_REDIRECT" = false ∧
    defineValidatedAction cfgObserverFold (.str "x") =
      Except.ok
        { result := none,
          error := some { fieldErrors := none, message := some "boom" } } :=
  ⟨rfl, by decide, rfl⟩

/-- C7 amended: a trapped non-navigation failure is always folded into
`{ error: { message: failure.message } }`, whether or not an observer is
configured; a configured observer is additionally invoked with the failure
before folding, and its own failure propagates instead of the folded
result. -/
theorem folding_with_observer (res : Option JSVal) (e : Err)
    (f : ObserverFn)
    (hnonav : stringIncludes e.message "NEXT_REDIRECT" = false) :
    (f e = Except.ok () →
      handleActionResponse res (some e) (some f) =
        Except.ok
          { result := none,
            error := some
              { fieldErrors := none, message := some e.message } }) ∧
    (∀ oe, f e = Except.error oe →
      handleActionResponse res (some e) (some f) = Except.error oe) ∧
    handleActionResponse res (some e) none =
      Except.ok
        { result := none,
          error := some { fieldErrors := none, message := some e.message } } := by
  refine ⟨?_, ?_, ?_⟩
  · intro hfe
    simp [handleActionResponse, hnonav, hfe]
  · intro oe hfe
    simp [handleActionResponse, hnonav, hfe]
  · simp [handleActionResponse, hnonav]

/-- Witness for C7 amended: a benign observer on a `"boom"` failure still
produces the folded message result. -/
theorem folding_with_observer_witness :
    handleActionResponse none (some { message := "boom" })
      (some fun _ => Except.ok ()) =
      Except.ok
        { result := none,
          error := some { fieldErrors := none, message := some "boom" } } :=
  (folding_with_observer none { message := "boom" } (fun _ => Except.ok ())
    (by decide)).1 rfl

/-- Witness for C10 at a FormData list with a duplicated key: lookup returns
the last value. -/
theorem formdata_flatten_last_wins_witness :
    recordGet (formDataToObject [("a", "1"), ("b", "2"), ("a", "3")]) "a" =
      lastEntryValue [("a", "1"), ("b", "2"), ("a", "3")] "a" ∧
    lastEntryValue [("a", "1"), ("b", "2"), ("a", "3")] "a" = some "3" :=
  ⟨formdata_flatten_last_wins [("a", "1"), ("b", "2"), ("a", "3")] "a",
    by decide⟩

end DxLib

example : DxLib.stringIncludes "abcNEXT_REDIRECTxyz" "NEXT_REDIRECT" = true := by decide
example : DxLib.stringIncludes "boom" "NEXT_REDIRECT" = false := by decide
example : DxLib.tryCatch (.callableArg (.ok .nullVal)) = ⟨.nullVal, .nullVal⟩ := rfl
example : DxLib.formDataToObject [("a", "1"), ("a", "2")] = [("a", "2")] := by decide
